import Mathlib

/-!
Verification of the `patodo` task tracker (Go): a shallow embedding of the
task store (`task.go`) and the interaction controller (`ui.go`), with
theorems settling the frozen claims about filtering, cursor bounds, mode
transitions, validation, and identifier uniqueness.

Modelling conventions:
* Time is modelled as a `Nat` counting microsecond ticks.  Go's
  `time.Now().Format("20060102150405.000000")` renders the wall clock at
  microsecond resolution, and that rendering is injective in the tick, so a
  task id is modelled by the tick value itself (`generateID`).
* File I/O (`Load`/`Save`) is out of scope: `Save` rewrites the file from the
  in-memory task list and, in the model, never fails, so every store
  operation simply returns the new store value.
* Go's `map` iteration order in `GetCategories` is unspecified; the model
  fixes one admissible enumeration (first-occurrence order of the distinct
  non-empty category labels).  No claim depends on which order is chosen.
-/

namespace Patodo

/-- `TaskStatus` from task.go: `pending`, `in-progress`, `done`. -/
inductive TaskStatus where
  | pending
  | inProgress
  | done
deriving DecidableEq, Repr

/-- `Task` from task.go.  `ID` is modelled by the microsecond tick that
`generateID` formatted (see module docstring); `CreatedAt`/`UpdatedAt` are
ticks as well.  A `TaskCategory` is a plain string. -/
structure Task where
  id : Nat
  description : String
  status : TaskStatus
  category : String
  createdAt : Nat
  updatedAt : Nat
deriving DecidableEq, Repr

/-- `TaskStore` from task.go, minus the file path (I/O is out of scope):
the ordered in-memory task list. -/
structure TaskStore where
  tasks : List Task
deriving DecidableEq, Repr

/-- `FilterOptions` from task.go: optional status and category predicates. -/
structure FilterOptions where
  status : Option TaskStatus
  category : Option String
deriving DecidableEq, Repr

/-- `GetAll` from task.go. -/
def GetAll (s : TaskStore) : List Task :=
  s.tasks

/-- `GetCategories` from task.go: the distinct non-empty category labels in
use.  Go iterates a set in unspecified order; the model fixes
first-occurrence order. -/
def GetCategories (s : TaskStore) : List String :=
  ((s.tasks.map (fun t => t.category)).filter (fun c => c ≠ "")).dedup

/-- `generateID` from task.go: formats the current time at microsecond
resolution.  The formatting is injective per tick, so the id is modelled by
the tick value `now` itself. -/
def generateID (now : Nat) : Nat :=
  now

/-- `Add` from task.go: append a fresh pending task and save. -/
def Add (s : TaskStore) (description : String) (category : String) (now : Nat) : TaskStore :=
  { s with tasks := s.tasks ++
      [{ id := generateID now, description := description, status := .pending,
         category := category, createdAt := now, updatedAt := now }] }

/-- `findTaskIndex` from task.go: index of the first task with the given id.
Go returns `-1` when absent; the model returns `none`. -/
def findTaskIndex : List Task → Nat → Option Nat
  | [], _ => none
  | t :: ts, id => if t.id = id then some 0 else (findTaskIndex ts id).map (· + 1)

/-- Replace the element at an index (helper for the `s.tasks[idx].field = v`
assignments in task.go; out-of-range indices never arise). -/
def modifyIdx (f : Task → Task) : Nat → List Task → List Task
  | _, [] => []
  | 0, t :: ts => f t :: ts
  | n + 1, t :: ts => t :: modifyIdx f n ts

/-- `UpdateStatus` from task.go: set the status and bump `UpdatedAt` of the
task with the given id; silent no-op when the id is absent. -/
def UpdateStatus (s : TaskStore) (id : Nat) (status : TaskStatus) (now : Nat) : TaskStore :=
  match findTaskIndex s.tasks id with
  | some idx => { s with tasks := modifyIdx (fun t => { t with status := status, updatedAt := now }) idx s.tasks }
  | none => s

/-- `UpdateDescription` from task.go. -/
def UpdateDescription (s : TaskStore) (id : Nat) (description : String) (now : Nat) : TaskStore :=
  match findTaskIndex s.tasks id with
  | some idx => { s with tasks := modifyIdx (fun t => { t with description := description, updatedAt := now }) idx s.tasks }
  | none => s

/-- `UpdateCategory` from task.go. -/
def UpdateCategory (s : TaskStore) (id : Nat) (category : String) (now : Nat) : TaskStore :=
  match findTaskIndex s.tasks id with
  | some idx => { s with tasks := modifyIdx (fun t => { t with category := category, updatedAt := now }) idx s.tasks }
  | none => s

/-- `Update` from task.go: set both description and category. -/
def Update (s : TaskStore) (id : Nat) (description : String) (category : String) (now : Nat) : TaskStore :=
  match findTaskIndex s.tasks id with
  | some idx => { s with tasks := modifyIdx (fun t => { t with description := description, category := category, updatedAt := now }) idx s.tasks }
  | none => s

/-- `Delete` from task.go: remove the task with the given id (first match);
silent no-op when absent. -/
def Delete (s : TaskStore) (id : Nat) : TaskStore :=
  match findTaskIndex s.tasks id with
  | some idx => { s with tasks := s.tasks.eraseIdx idx }
  | none => s

/-- The per-task predicate of `Filter` from task.go: both `continue` guards
negated and conjoined. -/
def taskMatches (opts : FilterOptions) (t : Task) : Bool :=
  (match opts.status with
   | some st => decide (t.status = st)
   | none => true) &&
  (match opts.category with
   | some c => decide (t.category = c)
   | none => true)

/-- `Filter` from task.go: the stored tasks satisfying all non-nil
predicates, in insertion order. -/
def Filter (s : TaskStore) (opts : FilterOptions) : List Task :=
  s.tasks.filter (taskMatches opts)

/-- `strings.TrimSpace` from the Go standard library, modelled on the
character list: drop whitespace from both ends.  (Go trims the full Unicode
White_Space class; the common whitespace characters of `Char.isWhitespace`
suffice for every string the claims mention.) -/
def trimSpace (s : String) : String :=
  String.mk (((s.data.dropWhile Char.isWhitespace).reverse.dropWhile Char.isWhitespace).reverse)

/-- `ViewMode` from ui.go. -/
inductive ViewMode where
  | list
  | create
  | edit
  | filter
  | filterCategory
deriving DecidableEq, Repr

/-- A key event as the controller sees it.  ui.go dispatches on `msg.Type`
(`KeyEsc`/`KeyTab`/`KeyEnter`) in Create/Edit mode and on `msg.String()`
elsewhere; `KeyMsg.str` gives that string form. -/
inductive KeyMsg where
  | esc
  | tab
  | enter
  | char (s : String)
deriving DecidableEq, Repr

/-- `msg.String()` of bubbletea for the keys the controller inspects. -/
def KeyMsg.str : KeyMsg → String
  | .esc => "esc"
  | .tab => "tab"
  | .enter => "enter"
  | .char s => s

/-- `model` from ui.go.  The two `textinput.Model` buffers are modelled by
their string contents (the library's focus/cursor internals are rendering
state with no effect on the controller's decisions beyond `activeInput`).
Go's `editingTaskID` is a string that is empty when no edit is in progress;
since generated ids are never the empty string this is modelled as
`Option Nat`.  `quitting` records the quit intent. -/
structure Model where
  store : TaskStore
  tasks : List Task
  cursor : Int
  viewMode : ViewMode
  textInput : String
  categoryInput : String
  filterStatus : Option TaskStatus
  filterCategory : Option String
  message : String
  quitting : Bool
  activeInput : Nat
  editingTaskID : Option Nat
  viewAsTable : Bool
deriving DecidableEq, Repr

/-- `initialModel` from ui.go. -/
def initialModel (store : TaskStore) : Model :=
  { store := store
    tasks := GetAll store
    cursor := 0
    viewMode := .list
    textInput := ""
    categoryInput := ""
    filterStatus := none
    filterCategory := none
    message := ""
    quitting := false
    activeInput := 0
    editingTaskID := none
    viewAsTable := true }

/-- `refreshTasks` from ui.go: re-derive the visible list from the store and
the active filters. -/
def Model.refreshTasks (m : Model) : Model :=
  { m with tasks := Filter m.store { status := m.filterStatus, category := m.filterCategory } }

/-- `hasCurrentTask` from ui.go: `len(m.tasks) > 0 && m.cursor < len(m.tasks)`
(note: no lower-bound check on the cursor, exactly as in the source). -/
def Model.hasCurrentTask (m : Model) : Bool :=
  decide (0 < m.tasks.length) && decide (m.cursor < (m.tasks.length : Int))

/-- `getCurrentTask` from ui.go: `m.tasks[m.cursor]`.  Go would panic out of
range; every call site guards with `hasCurrentTask` and reachable cursors
are nonnegative, so the default value is never consulted there. -/
def Model.getCurrentTask (m : Model) : Task :=
  m.tasks.getD m.cursor.toNat { id := 0, description := "", status := .pending, category := "", createdAt := 0, updatedAt := 0 }

/-- `updateTaskStatus` from ui.go: update the status of the task under the
cursor and refresh the visible list (`Save` cannot fail in the model, so the
error message branch is absent). -/
def Model.updateTaskStatus (m : Model) (status : TaskStatus) (now : Nat) : Model :=
  if m.hasCurrentTask then
    let task := m.getCurrentTask
    Model.refreshTasks { m with store := UpdateStatus m.store task.id status now }
  else m

/-- `applyStatusFilter` from ui.go. -/
def Model.applyStatusFilter (m : Model) (status : TaskStatus) (message : String) : Model :=
  let m1 := Model.refreshTasks { m with filterStatus := some status }
  { m1 with viewMode := .list, message := message, cursor := 0 }

/-- `updateListMode` from ui.go. -/
def updateListMode (m : Model) (msg : KeyMsg) (now : Nat) : Model :=
  match msg.str with
  | "ctrl+c" | "q" =>
    { m with quitting := true }
  | "n" =>
    { m with viewMode := .create, textInput := "", categoryInput := "", activeInput := 0,
             editingTaskID := none,
             message := "Enter task details (Tab to switch fields, Enter to save, ESC to cancel)" }
  | "e" =>
    if m.hasCurrentTask then
      let task := m.getCurrentTask
      { m with viewMode := .edit, editingTaskID := some task.id, textInput := task.description,
               categoryInput := task.category, activeInput := 0,
               message := "Edit task (Tab to switch fields, Enter to save, ESC to cancel)" }
    else m
  | "f" =>
    { m with viewMode := .filter,
             message := "Filter: (a)ll, (p)ending, (i)n-progress, (d)one, (c)ategory, ESC to cancel" }
  | "v" =>
    let vt := !m.viewAsTable
    { m with viewAsTable := vt,
             message := if vt then "Switched to table view" else "Switched to list view" }
  | "up" | "k" =>
    if m.cursor > 0 then { m with cursor := m.cursor - 1 } else m
  | "down" | "j" =>
    if m.cursor < (m.tasks.length : Int) - 1 then { m with cursor := m.cursor + 1 } else m
  | "d" =>
    if m.hasCurrentTask then
      let task := m.getCurrentTask
      if task.status = .done then
        { m.updateTaskStatus .pending now with message := "Task marked as pending" }
      else
        { m.updateTaskStatus .done now with message := "Task marked as done!" }
    else m
  | "i" =>
    if m.hasCurrentTask then
      { m.updateTaskStatus .inProgress now with message := "Task marked as in-progress" }
    else m
  | "p" =>
    if m.hasCurrentTask then
      { m.updateTaskStatus .pending now with message := "Task marked as pending" }
    else m
  | "x" =>
    if m.hasCurrentTask then
      let task := m.getCurrentTask
      let m1 := Model.refreshTasks { m with store := Delete m.store task.id, message := "Task deleted" }
      if m1.cursor ≥ (m1.tasks.length : Int) ∧ m1.cursor > 0 then
        { m1 with cursor := m1.cursor - 1 }
      else m1
    else m
  | _ => m

/-- `updateCreateMode` from ui.go.  The default branch feeds the key to the
focused text input; a plain character key appends to the buffer. -/
def updateCreateMode (m : Model) (msg : KeyMsg) (now : Nat) : Model :=
  match msg with
  | .esc =>
    { m with viewMode := .list, message := "Task creation cancelled" }
  | .tab =>
    if m.activeInput = 0 then { m with activeInput := 1 } else { m with activeInput := 0 }
  | .enter =>
    let description := trimSpace m.textInput
    if description = "" then
      { m with viewMode := .list, message := "Task creation cancelled - description is required" }
    else
      let categoryStr := trimSpace m.categoryInput
      if categoryStr = "" then
        { m with viewMode := .list, message := "Task creation cancelled - category is required" }
      else
        let m1 := { m with
                    store := Add m.store description categoryStr now
                    message := "Task created: " ++ description ++ " [" ++ categoryStr ++ "]" }
        let m2 := Model.refreshTasks m1
        { m2 with viewMode := .list }
  | .char s =>
    if m.activeInput = 0 then { m with textInput := m.textInput ++ s }
    else { m with categoryInput := m.categoryInput ++ s }

/-- `updateEditMode` from ui.go.  The `store.Update` call receives
`m.editingTaskID`; a `none` (empty-string) target matches no task. -/
def updateEditMode (m : Model) (msg : KeyMsg) (now : Nat) : Model :=
  match msg with
  | .esc =>
    { m with viewMode := .list, message := "Edit cancelled", editingTaskID := none }
  | .tab =>
    if m.activeInput = 0 then { m with activeInput := 1 } else { m with activeInput := 0 }
  | .enter =>
    let description := trimSpace m.textInput
    if description = "" then
      { m with viewMode := .list, message := "Edit cancelled - description is required",
               editingTaskID := none }
    else
      let categoryStr := trimSpace m.categoryInput
      let store1 := match m.editingTaskID with
        | some id => Update m.store id description categoryStr now
        | none => m.store
      let m1 := { m with store := store1, message := "Task updated successfully" }
      let m2 := Model.refreshTasks m1
      { m2 with editingTaskID := none, viewMode := .list }
  | .char s =>
    if m.activeInput = 0 then { m with textInput := m.textInput ++ s }
    else { m with categoryInput := m.categoryInput ++ s }

/-- `updateFilterMode` from ui.go. -/
def updateFilterMode (m : Model) (msg : KeyMsg) (_now : Nat) : Model :=
  match msg.str with
  | "esc" =>
    { m with viewMode := .list, message := "Filter cancelled" }
  | "a" =>
    let m1 := Model.refreshTasks { m with filterStatus := none, filterCategory := none }
    { m1 with viewMode := .list, message := "Showing all tasks", cursor := 0 }
  | "p" => m.applyStatusFilter .pending "Showing pending tasks"
  | "i" => m.applyStatusFilter .inProgress "Showing in-progress tasks"
  | "d" => m.applyStatusFilter .done "Showing done tasks"
  | "c" =>
    { m with viewMode := .filterCategory, message := "Select category to filter by" }
  | _ => m

/-- `updateFilterCategoryMode` from ui.go.  After the `esc`/`a` cases the
source re-queries `GetCategories` and accepts a single digit `1`-`9` whose
index falls inside the current category list. -/
def updateFilterCategoryMode (m : Model) (msg : KeyMsg) (_now : Nat) : Model :=
  match msg.str with
  | "esc" =>
    { m with viewMode := .list, message := "Filter cancelled" }
  | "a" =>
    let m1 := Model.refreshTasks { m with filterCategory := none }
    { m1 with viewMode := .list, message := "Showing all categories", cursor := 0 }
  | s =>
    let categories := GetCategories m.store
    match s.data with
    | [c] =>
      if '1' ≤ c ∧ c ≤ '9' then
        let idx := c.toNat - '1'.toNat
        if idx < categories.length then
          let categoryStr := categories.getD idx ""
          let m1 := Model.refreshTasks { m with filterCategory := some categoryStr }
          { m1 with viewMode := .list,
                    message := "Showing tasks in category: " ++ categoryStr, cursor := 0 }
        else m
      else m
    | _ => m

/-- `Update` method of `model` from ui.go: dispatch a key event on the
current mode (the `default` arm of the Go switch is List mode). -/
def update (m : Model) (msg : KeyMsg) (now : Nat) : Model :=
  match m.viewMode with
  | .create => updateCreateMode m msg now
  | .edit => updateEditMode m msg now
  | .filter => updateFilterMode m msg now
  | .filterCategory => updateFilterCategoryMode m msg now
  | .list => updateListMode m msg now

/-- Fold a sequence of timed key events through the controller. -/
def runEvents (m : Model) : List (KeyMsg × Nat) → Model
  | [] => m
  | e :: es => runEvents (update m e.1 e.2) es

/-- Re-derivation invariant: the visible task list equals `Filter` of the
store at the active filter options. -/
def VisInv (m : Model) : Prop :=
  m.tasks = Filter m.store { status := m.filterStatus, category := m.filterCategory }

/-- The ids of the currently stored tasks, in order. -/
def idsOf (s : TaskStore) : List Nat :=
  s.tasks.map Task.id

/-- A one-task store used to instantiate hypotheses at concrete inputs. -/
def sampleStore : TaskStore :=
  { tasks := [{ id := 1, description := "buy bread", status := .pending,
                category := "work", createdAt := 0, updatedAt := 0 }] }

/-- A two-task store with one done task and two distinct categories. -/
def sampleStore2 : TaskStore :=
  { tasks := [{ id := 1, description := "buy bread", status := .pending,
                category := "work", createdAt := 0, updatedAt := 0 },
              { id := 2, description := "file taxes", status := .done,
                category := "home", createdAt := 0, updatedAt := 0 }] }

/-- Two creations within the same microsecond tick. -/
def dupStore : TaskStore :=
  Add (Add { tasks := [] } "buy bread" "work" 5) "file taxes" "home" 5

/-- Events: create a pending task "a" in category "w" at tick 1, then a
second one "b"/"w" at tick 2, filter to pending, move down, then mark the
second task done — the visible list shrinks under the cursor. -/
def boundEvents : List (KeyMsg × Nat) :=
  [(.char "n", 0), (.char "a", 0), (.tab, 0), (.char "w", 0), (.enter, 1),
   (.char "n", 0), (.char "b", 0), (.tab, 0), (.char "w", 0), (.enter, 2),
   (.char "f", 0), (.char "p", 0), (.char "j", 0), (.char "d", 0)]

/-- The controller state reached by `boundEvents` from an empty store: list
mode with one visible (pending-filtered) task and the cursor left at 1. -/
def overCursorModel : Model :=
  runEvents (initialModel { tasks := [] }) boundEvents

/-- The controller state reached by the first 13 events of `boundEvents`:
list mode, two visible pending tasks, cursor on the last row (index 1). -/
def twoTaskModel : Model :=
  runEvents (initialModel { tasks := [] }) (boundEvents.take 13)

/-- The four list-mode cursor movement intents. -/
def isMoveKey (msg : KeyMsg) : Prop :=
  msg = .char "up" ∨ msg = .char "k" ∨ msg = .char "down" ∨ msg = .char "j"

instance (msg : KeyMsg) : Decidable (isMoveKey msg) := by
  unfold isMoveKey
  infer_instance

/-- Events: create a single task "a"/"w" at tick 1. -/
def singleTaskEvents : List (KeyMsg × Nat) :=
  [(.char "n", 0), (.char "a", 0), (.tab, 0), (.char "w", 0), (.enter, 1)]

/-- The controller state reached by `singleTaskEvents` from an empty store:
list mode, one visible task, cursor 0. -/
def singleTaskModel : Model :=
  runEvents (initialModel { tasks := [] }) singleTaskEvents

/-- The create-mode state of the §8 scenario: empty store, description
"Buy milk", empty category. -/
def createScenarioModel : Model :=
  { initialModel { tasks := [] } with viewMode := .create, textInput := "Buy milk" }

/-- A filter-status-mode state over `sampleStore2` with its visible list. -/
def filterModeModel : Model :=
  { initialModel sampleStore2 with viewMode := .filter }

/-- A filter-category-mode state over `sampleStore2` with an active status
filter. -/
def filterCatModeModel : Model :=
  { initialModel sampleStore2 with
    viewMode := .filterCategory
    filterStatus := some .pending }

/-! ## Store lemmas -/

theorem findTaskIndex_eq_none_of_absent {ts : List Task} {id : Nat}
    (h : ∀ t ∈ ts, t.id ≠ id) : findTaskIndex ts id = none := by
  induction ts with
  | nil => rfl
  | cons t ts ih =>
    unfold findTaskIndex
    rw [if_neg (h t (List.mem_cons_self t ts)),
        ih (fun u hu => h u (List.mem_cons_of_mem _ hu))]
    rfl

theorem taskMatches_none_none (t : Task) :
    taskMatches { status := none, category := none } t = true :=
  rfl

theorem Filter_none_none (s : TaskStore) :
    Filter s { status := none, category := none } = s.tasks := by
  unfold Filter
  induction s.tasks with
  | nil => rfl
  | cons t ts ih => simp [List.filter_cons, taskMatches_none_none, ih]

/-- C2: for every stored task `T` and options `F`, `Filter F` contains `T`
iff `T` is stored and matches every non-nil predicate of `F`; the matches
keep their insertion order (the result is a sublist of the store), filtering
with both options nil returns exactly the stored tasks, and the result is
always a plain (possibly empty) list, never an error. -/
theorem filter_correctness (s : TaskStore) (F : FilterOptions) :
    (∀ T : Task, T ∈ Filter s F ↔ T ∈ s.tasks ∧
      (F.status = none ∨ F.status = some T.status) ∧
      (F.category = none ∨ F.category = some T.category)) ∧
    (Filter s F).Sublist s.tasks ∧
    Filter s { status := none, category := none } = s.tasks := by
  obtain ⟨Fs, Fc⟩ := F
  refine ⟨?_, List.filter_sublist _, Filter_none_none s⟩
  intro T
  rw [Filter, List.mem_filter]
  cases Fs <;> cases Fc <;> simp [taskMatches] <;> aesop

/-- C4: update and delete operations called with an id absent from the store
return without error and leave the task list unchanged (the re-saved file
content is therefore identical as well). -/
theorem missing_id_silent_noop (s : TaskStore) (id : Nat) (st : TaskStatus)
    (d c : String) (now : Nat) (h : ∀ t ∈ s.tasks, t.id ≠ id) :
    UpdateStatus s id st now = s ∧ UpdateDescription s id d now = s ∧
    UpdateCategory s id c now = s ∧ Update s id d c now = s ∧
    Delete s id = s := by
  have hf := findTaskIndex_eq_none_of_absent h
  exact ⟨by rw [UpdateStatus, hf], by rw [UpdateDescription, hf],
         by rw [UpdateCategory, hf], by rw [Update, hf], by rw [Delete, hf]⟩

/-! ## Controller lemmas: the re-derivation invariant is preserved by every
event handler -/

theorem visInv_updateListMode (m : Model) (msg : KeyMsg) (now : Nat)
    (h : VisInv m) : VisInv (updateListMode m msg now) := by
  unfold updateListMode Model.updateTaskStatus
  split <;> (repeat' first | exact h | exact rfl | dsimp only | split)

theorem visInv_updateCreateMode (m : Model) (msg : KeyMsg) (now : Nat)
    (h : VisInv m) : VisInv (updateCreateMode m msg now) := by
  unfold updateCreateMode
  split <;> (repeat' first | exact h | exact rfl | dsimp only | split)

theorem visInv_updateEditMode (m : Model) (msg : KeyMsg) (now : Nat)
    (h : VisInv m) : VisInv (updateEditMode m msg now) := by
  unfold updateEditMode
  split <;> (repeat' first | exact h | exact rfl | dsimp only | split)

theorem visInv_updateFilterMode (m : Model) (msg : KeyMsg) (now : Nat)
    (h : VisInv m) : VisInv (updateFilterMode m msg now) := by
  unfold updateFilterMode Model.applyStatusFilter
  split <;> (repeat' first | exact h | exact rfl | dsimp only | split)

theorem visInv_updateFilterCategoryMode (m : Model) (msg : KeyMsg) (now : Nat)
    (h : VisInv m) : VisInv (updateFilterCategoryMode m msg now) := by
  unfold updateFilterCategoryMode
  split <;> (repeat' first | exact h | exact rfl | dsimp only | split)

theorem visInv_update (m : Model) (msg : KeyMsg) (now : Nat)
    (h : VisInv m) : VisInv (update m msg now) := by
  unfold update
  split
  · exact visInv_updateCreateMode m msg now h
  · exact visInv_updateEditMode m msg now h
  · exact visInv_updateFilterMode m msg now h
  · exact visInv_updateFilterCategoryMode m msg now h
  · exact visInv_updateListMode m msg now h

theorem visInv_runEvents (events : List (KeyMsg × Nat)) (m : Model)
    (h : VisInv m) : VisInv (runEvents m events) := by
  induction events generalizing m with
  | nil => exact h
  | cons e es ih => exact ih _ (visInv_update m e.1 e.2 h)

theorem visInv_initialModel (store0 : TaskStore) : VisInv (initialModel store0) :=
  (Filter_none_none store0).symm

/-- C1: every state the controller reaches from the initial state by
handling key events satisfies the re-derivation invariant: the visible task
list equals `Filter` of the store at the currently active filter options —
every handler that can change that result refreshes before returning. -/
theorem rederivation_invariant (store0 : TaskStore) (events : List (KeyMsg × Nat)) :
    VisInv (runEvents (initialModel store0) events) :=
  visInv_runEvents events (initialModel store0) (visInv_initialModel store0)

theorem missing_id_silent_noop_witness :
    (∀ t ∈ sampleStore.tasks, t.id ≠ 2) ∧
    (UpdateStatus sampleStore 2 .done 5 = sampleStore ∧
     UpdateDescription sampleStore 2 "x" 5 = sampleStore ∧
     UpdateCategory sampleStore 2 "y" 5 = sampleStore ∧
     Update sampleStore 2 "x" "y" 5 = sampleStore ∧
     Delete sampleStore 2 = sampleStore) :=
  ⟨by decide, missing_id_silent_noop sampleStore 2 .done "x" "y" 5 (by decide)⟩

/-! ## Identifier lemmas -/

theorem modifyIdx_map_id (f : Task → Task) (hf : ∀ t, (f t).id = t.id) :
    ∀ (n : Nat) (ts : List Task), (modifyIdx f n ts).map Task.id = ts.map Task.id := by
  intro n ts
  induction ts generalizing n with
  | nil => cases n <;> rfl
  | cons t ts ih =>
    cases n with
    | zero => simp [modifyIdx, hf]
    | succ k => simp [modifyIdx, ih]

theorem idsOf_UpdateStatus (s : TaskStore) (id : Nat) (st : TaskStatus) (now : Nat) :
    idsOf (UpdateStatus s id st now) = idsOf s := by
  unfold UpdateStatus
  split
  · exact modifyIdx_map_id (fun t => { t with status := st, updatedAt := now }) (fun t => rfl) _ _
  · rfl

theorem idsOf_UpdateDescription (s : TaskStore) (id : Nat) (d : String) (now : Nat) :
    idsOf (UpdateDescription s id d now) = idsOf s := by
  unfold UpdateDescription
  split
  · exact modifyIdx_map_id (fun t => { t with description := d, updatedAt := now }) (fun t => rfl) _ _
  · rfl

theorem idsOf_UpdateCategory (s : TaskStore) (id : Nat) (c : String) (now : Nat) :
    idsOf (UpdateCategory s id c now) = idsOf s := by
  unfold UpdateCategory
  split
  · exact modifyIdx_map_id (fun t => { t with category := c, updatedAt := now }) (fun t => rfl) _ _
  · rfl

theorem idsOf_Update (s : TaskStore) (id : Nat) (d c : String) (now : Nat) :
    idsOf (Update s id d c now) = idsOf s := by
  unfold Update
  split
  · exact modifyIdx_map_id (fun t => { t with description := d, category := c, updatedAt := now }) (fun t => rfl) _ _
  · rfl

theorem idsOf_Delete_sublist (s : TaskStore) (id : Nat) :
    (idsOf (Delete s id)).Sublist (idsOf s) := by
  unfold Delete
  split
  · exact (List.eraseIdx_sublist _ _).map _
  · exact List.Sublist.refl _

theorem idsOf_Add (s : TaskStore) (d c : String) (now : Nat) :
    idsOf (Add s d c now) = idsOf s ++ [generateID now] := by
  simp [idsOf, Add]

/-- C8 (amended): task ids are immutable — the update operations keep the id
list exactly, `Delete` only removes from it, and `Add` is the only operation
that creates an id, appending `generateID now`.  Pairwise distinctness of the
stored ids is preserved by every operation, and by `Add` provided the fresh
id (the creation tick) is not already present — which holds when creations
occur at distinct microsecond ticks, but not for two creations within the
same tick (see the counterexample). -/
theorem id_uniqueness (s : TaskStore) (id : Nat) (st : TaskStatus)
    (d c : String) (now : Nat) :
    idsOf (UpdateStatus s id st now) = idsOf s ∧
    idsOf (UpdateDescription s id d now) = idsOf s ∧
    idsOf (UpdateCategory s id c now) = idsOf s ∧
    idsOf (Update s id d c now) = idsOf s ∧
    (idsOf (Delete s id)).Sublist (idsOf s) ∧
    idsOf (Add s d c now) = idsOf s ++ [generateID now] ∧
    ((idsOf s).Nodup → (idsOf (Delete s id)).Nodup) ∧
    ((idsOf s).Nodup → generateID now ∉ idsOf s → (idsOf (Add s d c now)).Nodup) := by
  refine ⟨idsOf_UpdateStatus s id st now, idsOf_UpdateDescription s id d now,
          idsOf_UpdateCategory s id c now, idsOf_Update s id d c now,
          idsOf_Delete_sublist s id, idsOf_Add s d c now, ?_, ?_⟩
  · exact fun h => h.sublist (idsOf_Delete_sublist s id)
  · intro h hnotin
    rw [idsOf_Add]
    simp [List.nodup_append, h, hnotin]

theorem id_uniqueness_witness :
    (idsOf sampleStore).Nodup ∧ generateID 2 ∉ idsOf sampleStore ∧
    (idsOf (Add sampleStore "x" "y" 2)).Nodup :=
  ⟨by decide, by decide,
   (id_uniqueness sampleStore 0 .done "x" "y" 2).2.2.2.2.2.2.2 (by decide) (by decide)⟩

/-- C8 fails as stated: two `Add` calls within the same microsecond tick
(`dupStore`) leave the store with the duplicate id list `[5, 5]`, so ids of
currently-stored tasks are not pairwise distinct under rapid succession. -/
theorem id_uniqueness_counterexample :
    idsOf dupStore = [5, 5] ∧ ¬ (idsOf dupStore).Nodup := by
  decide

/-! ## Mode dispatch lemmas -/

theorem update_eq_listMode (m : Model) (msg : KeyMsg) (now : Nat)
    (hm : m.viewMode = .list) : update m msg now = updateListMode m msg now := by
  unfold update
  rw [hm]

theorem update_eq_createMode (m : Model) (msg : KeyMsg) (now : Nat)
    (hm : m.viewMode = .create) : update m msg now = updateCreateMode m msg now := by
  unfold update
  rw [hm]

theorem update_eq_editMode (m : Model) (msg : KeyMsg) (now : Nat)
    (hm : m.viewMode = .edit) : update m msg now = updateEditMode m msg now := by
  unfold update
  rw [hm]

theorem update_eq_filterMode (m : Model) (msg : KeyMsg) (now : Nat)
    (hm : m.viewMode = .filter) : update m msg now = updateFilterMode m msg now := by
  unfold update
  rw [hm]

theorem update_eq_filterCatMode (m : Model) (msg : KeyMsg) (now : Nat)
    (hm : m.viewMode = .filterCategory) :
    update m msg now = updateFilterCategoryMode m msg now := by
  unfold update
  rw [hm]

/-! ## C10: the two "show all" choices -/

/-- C10: the "all" choice in FilterCategory mode clears only the category
filter (an active status filter stays in effect on the re-derived visible
list), whereas the "all" choice in FilterStatus mode clears both filters; in
both cases the controller returns to List mode with the cursor reset to 0,
the store unchanged, and the visible list re-derived. -/
theorem show_all_asymmetry (m : Model) (now : Nat) :
    (m.viewMode = ViewMode.filterCategory →
      update m (.char "a") now =
        { m with filterCategory := none
                 tasks := Filter m.store { status := m.filterStatus, category := none }
                 viewMode := .list
                 message := "Showing all categories"
                 cursor := 0 }) ∧
    (m.viewMode = ViewMode.filter →
      update m (.char "a") now =
        { m with filterStatus := none
                 filterCategory := none
                 tasks := Filter m.store { status := none, category := none }
                 viewMode := .list
                 message := "Showing all tasks"
                 cursor := 0 }) := by
  constructor
  · intro h
    rw [update_eq_filterCatMode m _ now h]
    rfl
  · intro h
    rw [update_eq_filterMode m _ now h]
    rfl

theorem show_all_asymmetry_witness :
    filterCatModeModel.viewMode = ViewMode.filterCategory ∧
    filterModeModel.viewMode = ViewMode.filter ∧
    update filterCatModeModel (.char "a") 0 =
      { filterCatModeModel with
        filterCategory := none
        tasks := Filter filterCatModeModel.store
          { status := filterCatModeModel.filterStatus, category := none }
        viewMode := .list
        message := "Showing all categories"
        cursor := 0 } ∧
    update filterModeModel (.char "a") 0 =
      { filterModeModel with
        filterStatus := none
        filterCategory := none
        tasks := Filter filterModeModel.store { status := none, category := none }
        viewMode := .list
        message := "Showing all tasks"
        cursor := 0 } :=
  ⟨rfl, rfl, (show_all_asymmetry filterCatModeModel 0).1 rfl,
   (show_all_asymmetry filterModeModel 0).2 rfl⟩

/-! ## C5: create-mode validation -/

/-- C5: confirming creation with an empty (trimmed) description, or a
non-empty description but an empty (trimmed) category, returns the
controller to List mode with only the status message changed — in
particular the store is untouched — and the message names the missing
field. -/
theorem create_validation (m : Model) (now : Nat)
    (hm : m.viewMode = ViewMode.create) :
    (trimSpace m.textInput = "" →
      update m .enter now =
        { m with viewMode := .list,
                 message := "Task creation cancelled - description is required" }) ∧
    (trimSpace m.textInput ≠ "" → trimSpace m.categoryInput = "" →
      update m .enter now =
        { m with viewMode := .list,
                 message := "Task creation cancelled - category is required" }) := by
  rw [update_eq_createMode m _ now hm]
  constructor
  · intro h
    unfold updateCreateMode
    rw [if_pos h]
  · intro h1 h2
    unfold updateCreateMode
    rw [if_neg h1, if_pos h2]

theorem create_validation_witness :
    createScenarioModel.viewMode = ViewMode.create ∧
    trimSpace createScenarioModel.textInput ≠ "" ∧
    trimSpace createScenarioModel.categoryInput = "" ∧
    createScenarioModel.store.tasks = [] ∧
    update createScenarioModel .enter 0 =
      { createScenarioModel with
        viewMode := .list,
        message := "Task creation cancelled - category is required" } ∧
    (update createScenarioModel .enter 0).store.tasks = [] :=
  ⟨rfl, by decide, by decide, rfl,
   (create_validation createScenarioModel 0 rfl).2 (by decide) (by decide),
   by decide⟩

/-! ## C6: mode completeness -/

theorem createMode_viewMode (m : Model) (msg : KeyMsg) (now : Nat) :
    (updateCreateMode m msg now).viewMode = ViewMode.list ∨
    (updateCreateMode m msg now).viewMode = m.viewMode := by
  cases msg <;> unfold updateCreateMode <;>
    (repeat' first | exact Or.inl rfl | exact Or.inr rfl | dsimp only | split)

theorem editMode_viewMode (m : Model) (msg : KeyMsg) (now : Nat) :
    (updateEditMode m msg now).viewMode = ViewMode.list ∨
    (updateEditMode m msg now).viewMode = m.viewMode := by
  cases msg <;> unfold updateEditMode <;>
    (repeat' first | exact Or.inl rfl | exact Or.inr rfl | dsimp only | split)

theorem filterMode_viewMode (m : Model) (msg : KeyMsg) (now : Nat) :
    (updateFilterMode m msg now).viewMode = ViewMode.list ∨
    (updateFilterMode m msg now).viewMode = m.viewMode ∨
    (msg.str = "c" ∧ (updateFilterMode m msg now).viewMode = ViewMode.filterCategory) := by
  unfold updateFilterMode Model.applyStatusFilter
  split <;>
    first
      | exact Or.inl rfl
      | exact Or.inr (Or.inl rfl)
      | exact Or.inr (Or.inr ⟨by assumption, rfl⟩)

theorem filterCategoryMode_viewMode (m : Model) (msg : KeyMsg) (now : Nat) :
    (updateFilterCategoryMode m msg now).viewMode = ViewMode.list ∨
    (updateFilterCategoryMode m msg now).viewMode = m.viewMode := by
  unfold updateFilterCategoryMode
  split <;>
    (repeat' first | exact Or.inl rfl | exact Or.inr rfl | dsimp only | split)

/-- The two outcomes of a digit key in FilterCategory mode: an out-of-range
index leaves the model unchanged, an in-range index applies the selected
category filter and returns to List. -/
theorem updateFilterCategoryMode_select (m : Model) (now : Nat) (s : String) (c : Char)
    (hs : s.data = [c]) (hc : '1' ≤ c ∧ c ≤ '9') :
    ((GetCategories m.store).length ≤ c.toNat - '1'.toNat →
      updateFilterCategoryMode m (.char s) now = m) ∧
    (c.toNat - '1'.toNat < (GetCategories m.store).length →
      updateFilterCategoryMode m (.char s) now =
        { m with
          filterCategory := some ((GetCategories m.store).getD (c.toNat - '1'.toNat) "")
          tasks := Filter m.store
            { status := m.filterStatus,
              category := some ((GetCategories m.store).getD (c.toNat - '1'.toNat) "") }
          viewMode := .list
          message := "Showing tasks in category: " ++
            (GetCategories m.store).getD (c.toNat - '1'.toNat) ""
          cursor := 0 }) := by
  have hesc : s ≠ "esc" := by
    rintro rfl
    have he : ("esc" : String).data = ['e', 's', 'c'] := rfl
    rw [he] at hs
    simp at hs
  have ha : s ≠ "a" := by
    rintro rfl
    have he : ("a" : String).data = ['a'] := rfl
    rw [he] at hs
    have : c = 'a' := by simpa using hs.symm
    subst this
    exact absurd hc.2 (by decide)
  unfold updateFilterCategoryMode
  dsimp only [KeyMsg.str]
  split
  · exact absurd rfl hesc
  · exact absurd rfl ha
  · simp only [hs]
    rw [if_pos hc]
    constructor
    · intro hge
      rw [if_neg (by omega)]
    · intro hlt
      rw [if_pos hlt]
      rfl

/-- C6 (amended): from every non-List mode a cancel intent returns to List;
a confirm intent (Enter in Create/Edit, a status choice in FilterStatus, the
"all" choice or a valid number selection in FilterCategory) returns to List;
and after any event the mode is List, unchanged, or — the one exception to
the claim as stated — FilterCategory reached from FilterStatus by the
category sub-menu intent. -/
theorem mode_completeness (m : Model) (msg : KeyMsg) (now : Nat)
    (hm : m.viewMode ≠ ViewMode.list) :
    ((update m .esc now).viewMode = ViewMode.list) ∧
    ((m.viewMode = ViewMode.create ∨ m.viewMode = ViewMode.edit) →
      (update m .enter now).viewMode = ViewMode.list) ∧
    (m.viewMode = ViewMode.filter →
      ∀ k : String, (k = "a" ∨ k = "p" ∨ k = "i" ∨ k = "d") →
        (update m (.char k) now).viewMode = ViewMode.list) ∧
    (m.viewMode = ViewMode.filterCategory →
      (update m (.char "a") now).viewMode = ViewMode.list) ∧
    ((update m msg now).viewMode = ViewMode.list ∨
     (update m msg now).viewMode = m.viewMode ∨
     (m.viewMode = ViewMode.filter ∧ msg.str = "c" ∧
       (update m msg now).viewMode = ViewMode.filterCategory)) ∧
    (m.viewMode = ViewMode.filterCategory →
      ∀ (s : String) (c : Char), s.data = [c] → '1' ≤ c ∧ c ≤ '9' →
        c.toNat - '1'.toNat < (GetCategories m.store).length →
        (update m (.char s) now).viewMode = ViewMode.list) := by
  refine ⟨?_, ?_, ?_, ?_, ?_, ?_⟩
  · cases hv : m.viewMode
    · exact absurd hv hm
    · rw [update_eq_createMode m _ now hv]; rfl
    · rw [update_eq_editMode m _ now hv]; rfl
    · rw [update_eq_filterMode m _ now hv]; rfl
    · rw [update_eq_filterCatMode m _ now hv]; rfl
  · rintro (hv | hv)
    · rw [update_eq_createMode m _ now hv]
      unfold updateCreateMode
      repeat' first | rfl | dsimp only | split
    · rw [update_eq_editMode m _ now hv]
      unfold updateEditMode
      repeat' first | rfl | dsimp only | split
  · intro hv k hk
    rw [update_eq_filterMode m _ now hv]
    rcases hk with rfl | rfl | rfl | rfl <;> rfl
  · intro hv
    rw [update_eq_filterCatMode m _ now hv]
    rfl
  · cases hv : m.viewMode
    · exact absurd hv hm
    · rw [update_eq_createMode m _ now hv]
      rcases createMode_viewMode m msg now with h | h
      · exact Or.inl h
      · exact Or.inr (Or.inl (h.trans hv))
    · rw [update_eq_editMode m _ now hv]
      rcases editMode_viewMode m msg now with h | h
      · exact Or.inl h
      · exact Or.inr (Or.inl (h.trans hv))
    · rw [update_eq_filterMode m _ now hv]
      rcases filterMode_viewMode m msg now with h | h | ⟨hc, h⟩
      · exact Or.inl h
      · exact Or.inr (Or.inl (h.trans hv))
      · exact Or.inr (Or.inr ⟨rfl, hc, h⟩)
    · rw [update_eq_filterCatMode m _ now hv]
      rcases filterCategoryMode_viewMode m msg now with h | h
      · exact Or.inl h
      · exact Or.inr (Or.inl (h.trans hv))
  · intro hv s c hs hc hlt
    rw [update_eq_filterCatMode m _ now hv,
        (updateFilterCategoryMode_select m now s c hs hc).2 hlt]

theorem mode_completeness_witness :
    (update filterCatModeModel .esc 0).viewMode = ViewMode.list ∧
    (update filterCatModeModel (.char "a") 0).viewMode = ViewMode.list ∧
    (update filterCatModeModel (.char "1") 0).viewMode = ViewMode.list :=
  ⟨(mode_completeness filterCatModeModel .esc 0 (by decide)).1,
   (mode_completeness filterCatModeModel (.char "a") 0 (by decide)).2.2.2.1 rfl,
   (mode_completeness filterCatModeModel (.char "1") 0 (by decide)).2.2.2.2.2
     rfl "1" '1' rfl (by decide) (by decide)⟩

/-- C6 fails as stated: from FilterStatus mode (a non-List mode) the
category sub-menu intent transitions directly to FilterCategory, another
non-List mode. -/
theorem mode_completeness_counterexample :
    filterModeModel.viewMode = ViewMode.filter ∧
    (update filterModeModel (.char "c") 0).viewMode = ViewMode.filterCategory ∧
    (update filterModeModel (.char "c") 0).viewMode ≠ ViewMode.list := by
  decide

/-! ## C7: category selection guard -/

/-- C7: in FilterCategory mode the categories are numbered from 1 in the
enumeration order of `GetCategories`, re-queried from the store at selection
time; pressing digit `c` selects the category at index `c - '1'` when that
index is inside the current category list, and is rejected — the whole model
is unchanged, mode included — when it is not. -/
theorem category_selection_guard (m : Model) (now : Nat) (s : String) (c : Char)
    (hm : m.viewMode = ViewMode.filterCategory)
    (hs : s.data = [c]) (hc : '1' ≤ c ∧ c ≤ '9') :
    ((GetCategories m.store).length ≤ c.toNat - '1'.toNat →
      update m (.char s) now = m) ∧
    (c.toNat - '1'.toNat < (GetCategories m.store).length →
      update m (.char s) now =
        { m with
          filterCategory := some ((GetCategories m.store).getD (c.toNat - '1'.toNat) "")
          tasks := Filter m.store
            { status := m.filterStatus,
              category := some ((GetCategories m.store).getD (c.toNat - '1'.toNat) "") }
          viewMode := .list
          message := "Showing tasks in category: " ++
            (GetCategories m.store).getD (c.toNat - '1'.toNat) ""
          cursor := 0 }) := by
  rw [update_eq_filterCatMode m _ now hm]
  exact updateFilterCategoryMode_select m now s c hs hc

theorem category_selection_guard_witness :
    GetCategories filterCatModeModel.store = ["work", "home"] ∧
    update filterCatModeModel (.char "5") 0 = filterCatModeModel ∧
    update filterCatModeModel (.char "1") 0 =
      { filterCatModeModel with
        filterCategory := some "work"
        tasks := Filter filterCatModeModel.store
          { status := filterCatModeModel.filterStatus, category := some "work" }
        viewMode := .list
        message := "Showing tasks in category: work"
        cursor := 0 } :=
  ⟨by decide,
   (category_selection_guard filterCatModeModel 0 "5" '5' rfl rfl (by decide)).1 (by decide),
   (category_selection_guard filterCatModeModel 0 "1" '1' rfl rfl (by decide)).2 (by decide)⟩

/-! ## C3: cursor movement bounds -/

theorem updateListMode_up_eq (m : Model) (now : Nat) :
    updateListMode m (.char "up") now =
      if m.cursor > 0 then { m with cursor := m.cursor - 1 } else m := rfl

theorem updateListMode_k_eq (m : Model) (now : Nat) :
    updateListMode m (.char "k") now =
      if m.cursor > 0 then { m with cursor := m.cursor - 1 } else m := rfl

theorem updateListMode_down_eq (m : Model) (now : Nat) :
    updateListMode m (.char "down") now =
      if m.cursor < (m.tasks.length : Int) - 1 then { m with cursor := m.cursor + 1 } else m := rfl

theorem updateListMode_j_eq (m : Model) (now : Nat) :
    updateListMode m (.char "j") now =
      if m.cursor < (m.tasks.length : Int) - 1 then { m with cursor := m.cursor + 1 } else m := rfl

theorem move_step (m : Model) (msg : KeyMsg) (now : Nat) (hk : isMoveKey msg)
    (hm : m.viewMode = ViewMode.list) :
    (update m msg now).tasks = m.tasks ∧
    (update m msg now).viewMode = ViewMode.list ∧
    (0 ≤ m.cursor → 0 ≤ (update m msg now).cursor) ∧
    (update m msg now).cursor ≤ max m.cursor ((m.tasks.length : Int) - 1) := by
  rcases hk with rfl | rfl | rfl | rfl <;>
    rw [update_eq_listMode m _ now hm] <;>
    first
      | rw [updateListMode_up_eq]
      | rw [updateListMode_k_eq]
      | rw [updateListMode_down_eq]
      | rw [updateListMode_j_eq]
  all_goals
    split <;> refine ⟨rfl, hm, fun h0 => ?_, ?_⟩ <;> (try dsimp only) <;> omega

theorem move_runEvents (moves : List (KeyMsg × Nat)) (m : Model)
    (hmoves : ∀ e ∈ moves, isMoveKey e.1) (hm : m.viewMode = ViewMode.list)
    (h0 : 0 ≤ m.cursor) :
    (runEvents m moves).tasks = m.tasks ∧
    (runEvents m moves).viewMode = ViewMode.list ∧
    0 ≤ (runEvents m moves).cursor ∧
    (runEvents m moves).cursor ≤ max m.cursor ((m.tasks.length : Int) - 1) := by
  induction moves generalizing m with
  | nil => exact ⟨rfl, hm, h0, by simp only [runEvents]; omega⟩
  | cons e es ih =>
    simp only [runEvents]
    obtain ⟨ht, hv, hc0, hcm⟩ := move_step m e.1 e.2 (hmoves e (List.mem_cons_self e es)) hm
    obtain ⟨t2, v2, c2, m2⟩ :=
      ih (update m e.1 e.2) (fun x hx => hmoves x (List.mem_cons_of_mem _ hx)) hv (hc0 h0)
    refine ⟨t2.trans ht, v2, c2, ?_⟩
    rw [ht] at m2
    omega

theorem cursor_nonneg_updateListMode (m : Model) (msg : KeyMsg) (now : Nat)
    (h : 0 ≤ m.cursor) : 0 ≤ (updateListMode m msg now).cursor := by
  unfold updateListMode Model.updateTaskStatus Model.refreshTasks
  split <;> (repeat' first | dsimp only | split) <;> (try dsimp only at *) <;>
    first | exact h | omega

theorem cursor_nonneg_updateCreateMode (m : Model) (msg : KeyMsg) (now : Nat)
    (h : 0 ≤ m.cursor) : 0 ≤ (updateCreateMode m msg now).cursor := by
  unfold updateCreateMode Model.refreshTasks
  split <;> (repeat' first | dsimp only | split) <;> exact h

theorem cursor_nonneg_updateEditMode (m : Model) (msg : KeyMsg) (now : Nat)
    (h : 0 ≤ m.cursor) : 0 ≤ (updateEditMode m msg now).cursor := by
  unfold updateEditMode Model.refreshTasks
  split <;> (repeat' first | dsimp only | split) <;> exact h

theorem cursor_nonneg_updateFilterMode (m : Model) (msg : KeyMsg) (now : Nat)
    (h : 0 ≤ m.cursor) : 0 ≤ (updateFilterMode m msg now).cursor := by
  unfold updateFilterMode Model.applyStatusFilter Model.refreshTasks
  split <;> (repeat' first | dsimp only | split) <;> first | exact h | omega

theorem cursor_nonneg_updateFilterCategoryMode (m : Model) (msg : KeyMsg) (now : Nat)
    (h : 0 ≤ m.cursor) : 0 ≤ (updateFilterCategoryMode m msg now).cursor := by
  unfold updateFilterCategoryMode Model.refreshTasks
  split <;> (repeat' first | dsimp only | split) <;> first | exact h | omega

theorem cursor_nonneg_update (m : Model) (msg : KeyMsg) (now : Nat)
    (h : 0 ≤ m.cursor) : 0 ≤ (update m msg now).cursor := by
  unfold update
  split
  · exact cursor_nonneg_updateCreateMode m msg now h
  · exact cursor_nonneg_updateEditMode m msg now h
  · exact cursor_nonneg_updateFilterMode m msg now h
  · exact cursor_nonneg_updateFilterCategoryMode m msg now h
  · exact cursor_nonneg_updateListMode m msg now h

theorem cursor_nonneg_runEvents (store0 : TaskStore) (events : List (KeyMsg × Nat)) :
    0 ≤ (runEvents (initialModel store0) events).cursor := by
  suffices h : ∀ (m : Model), 0 ≤ m.cursor → ∀ es : List (KeyMsg × Nat),
      0 ≤ (runEvents m es).cursor from
    h (initialModel store0) (by exact Int.le_refl 0) events
  intro m hm es
  induction es generalizing m with
  | nil => exact hm
  | cons e es ih => exact ih _ (cursor_nonneg_update m e.1 e.2 hm)

/-- C3 (amended): in every reachable controller state the cursor is ≥ 0;
from a reachable list-mode state, a sequence of movement intents keeps the
cursor within `[0, max cursor (count-1)]` and does not change the visible
list — in particular movements never newly produce a cursor ≥ the visible
count (if the cursor was below the count it stays below) — and movement past
either end is a no-op, never a wraparound.  (As stated the claim fails: the
status-change shortcuts do not clamp the cursor, so reachable list-mode
states with cursor ≥ count exist; see the counterexample.) -/
theorem cursor_movement_bounds (store0 : TaskStore)
    (events moves : List (KeyMsg × Nat)) (m : Model) (now : Nat)
    (hre : m = runEvents (initialModel store0) events)
    (hmoves : ∀ e ∈ moves, isMoveKey e.1)
    (hm : m.viewMode = ViewMode.list) :
    0 ≤ m.cursor ∧
    (runEvents m moves).tasks = m.tasks ∧
    0 ≤ (runEvents m moves).cursor ∧
    (runEvents m moves).cursor ≤ max m.cursor ((m.tasks.length : Int) - 1) ∧
    (m.cursor ≤ 0 → update m (.char "up") now = m ∧ update m (.char "k") now = m) ∧
    ((m.tasks.length : Int) - 1 ≤ m.cursor →
      update m (.char "down") now = m ∧ update m (.char "j") now = m) := by
  have h0 : 0 ≤ m.cursor := hre ▸ cursor_nonneg_runEvents store0 events
  obtain ⟨ht, _, hc0, hcm⟩ := move_runEvents moves m hmoves hm h0
  refine ⟨h0, ht, hc0, hcm, ?_, ?_⟩
  · intro hle
    constructor <;> rw [update_eq_listMode m _ now hm]
    · rw [updateListMode_up_eq, if_neg (by omega)]
    · rw [updateListMode_k_eq, if_neg (by omega)]
  · intro hge
    constructor <;> rw [update_eq_listMode m _ now hm]
    · rw [updateListMode_down_eq, if_neg (by omega)]
    · rw [updateListMode_j_eq, if_neg (by omega)]

theorem cursor_movement_bounds_witness :
    0 ≤ singleTaskModel.cursor ∧
    0 ≤ (runEvents singleTaskModel [(.char "j", 0), (.char "k", 0)]).cursor ∧
    (runEvents singleTaskModel [(.char "j", 0), (.char "k", 0)]).cursor ≤
      max singleTaskModel.cursor ((singleTaskModel.tasks.length : Int) - 1) :=
  ⟨(cursor_movement_bounds { tasks := [] } singleTaskEvents
      [(.char "j", 0), (.char "k", 0)] singleTaskModel 7 rfl (by decide) (by decide)).1,
   (cursor_movement_bounds { tasks := [] } singleTaskEvents
      [(.char "j", 0), (.char "k", 0)] singleTaskModel 7 rfl (by decide) (by decide)).2.2.1,
   (cursor_movement_bounds { tasks := [] } singleTaskEvents
      [(.char "j", 0), (.char "k", 0)] singleTaskModel 7 rfl (by decide) (by decide)).2.2.2.1⟩

/-- C3 fails as stated: `overCursorModel` is reachable and in list mode, yet
after a further "down" movement intent the cursor is ≥ the visible task
count (the status shortcut that emptied the row under the cursor never
clamps, and the movement no-op keeps the out-of-range value). -/
theorem cursor_movement_bounds_counterexample :
    overCursorModel.viewMode = ViewMode.list ∧
    ((update overCursorModel (.char "j") 0).tasks.length : Int) ≤
      (update overCursorModel (.char "j") 0).cursor := by
  decide

/-! ## C9: cursor clamp on delete -/

theorem getD_mem_of_lt {l : List Task} {n : Nat} {d : Task} (h : n < l.length) :
    l.getD n d ∈ l := by
  induction l generalizing n with
  | nil => simp at h
  | cons a as ih =>
    cases n with
    | zero =>
      have he : (a :: as).getD 0 d = a := rfl
      rw [he]
      exact List.mem_cons_self a as
    | succ k =>
      have he : (a :: as).getD (k + 1) d = as.getD k d := rfl
      rw [he]
      exact List.mem_cons_of_mem _ (ih (by simpa using h))

theorem getCurrentTask_mem (m : Model) (h0 : 0 ≤ m.cursor)
    (hcur : m.hasCurrentTask = true) : m.getCurrentTask ∈ m.tasks := by
  unfold Model.hasCurrentTask at hcur
  simp only [Bool.and_eq_true, decide_eq_true_eq] at hcur
  exact getD_mem_of_lt (by omega)

theorem exists_split_of_mem_nodup {l : List Task} {t : Task}
    (hmem : t ∈ l) (hnd : (l.map Task.id).Nodup) :
    ∃ l₁ l₂, l = l₁ ++ t :: l₂ ∧ findTaskIndex l t.id = some l₁.length ∧
      l.eraseIdx l₁.length = l₁ ++ l₂ := by
  induction l with
  | nil => cases hmem
  | cons hd tl ih =>
    rw [List.map_cons, List.nodup_cons] at hnd
    rcases List.mem_cons.mp hmem with rfl | hmem'
    · refine ⟨[], tl, rfl, ?_, rfl⟩
      unfold findTaskIndex
      rw [if_pos rfl]
      rfl
    · have hne : hd.id ≠ t.id := fun he => hnd.1 (he ▸ List.mem_map_of_mem Task.id hmem')
      obtain ⟨l₁, l₂, rfl, hfind, herase⟩ := ih hmem' hnd.2
      refine ⟨hd :: l₁, l₂, rfl, ?_, ?_⟩
      · unfold findTaskIndex
        rw [if_neg hne, hfind]
        rfl
      · exact congrArg (List.cons hd) herase

theorem length_Filter_Delete (s : TaskStore) (opts : FilterOptions) (t : Task)
    (hmem : t ∈ s.tasks) (hmatch : taskMatches opts t = true)
    (hnd : (idsOf s).Nodup) :
    (Filter (Delete s t.id) opts).length + 1 = (Filter s opts).length := by
  obtain ⟨l₁, l₂, hsplit, hfind, herase⟩ := exists_split_of_mem_nodup hmem hnd
  unfold Delete
  rw [hfind]
  unfold Filter
  dsimp only
  rw [herase, hsplit]
  simp [List.filter_append, List.filter_cons, hmatch]
  omega

theorem updateListMode_x_eq (m : Model) (now : Nat) :
    updateListMode m (.char "x") now =
      if m.hasCurrentTask then
        let task := m.getCurrentTask
        let m1 := Model.refreshTasks
          { m with store := Delete m.store task.id, message := "Task deleted" }
        if m1.cursor ≥ (m1.tasks.length : Int) ∧ m1.cursor > 0 then
          { m1 with cursor := m1.cursor - 1 }
        else m1
      else m := rfl

/-- C9 (amended): deleting the task under the cursor (with pairwise-distinct
stored ids so that "the task under the cursor" is the task the store
removes) shrinks the visible list by exactly one; the cursor stays ≥ 0 and
inside the new list unless the list became empty with the cursor at 0; when
the cursor was on the last visible row it decrements by exactly one if it
was positive, and stays at 0 if the deleted row was row 0 (it does not
decrement to -1, contrary to the claim's unconditional "decrements by
one"). -/
theorem delete_cursor_clamp (m : Model) (now : Nat)
    (hm : m.viewMode = ViewMode.list) (hinv : VisInv m)
    (hnd : (idsOf m.store).Nodup) (h0 : 0 ≤ m.cursor)
    (hcur : m.hasCurrentTask = true) :
    0 ≤ (update m (.char "x") now).cursor ∧
    (update m (.char "x") now).tasks.length + 1 = m.tasks.length ∧
    ((update m (.char "x") now).cursor < ((update m (.char "x") now).tasks.length : Int) ∨
      ((update m (.char "x") now).tasks.length = 0 ∧ (update m (.char "x") now).cursor = 0)) ∧
    (0 < m.cursor → m.cursor = (m.tasks.length : Int) - 1 →
      (update m (.char "x") now).cursor = m.cursor - 1) ∧
    (m.cursor = 0 → (update m (.char "x") now).cursor = 0) := by
  have htask : m.getCurrentTask ∈ m.tasks := getCurrentTask_mem m h0 hcur
  rw [hinv] at htask
  have hmem := (List.mem_filter.mp htask).1
  have hmatch := (List.mem_filter.mp htask).2
  have hlen := length_Filter_Delete m.store
    { status := m.filterStatus, category := m.filterCategory } m.getCurrentTask
    hmem hmatch hnd
  have hlen' : m.tasks.length =
      (Filter m.store { status := m.filterStatus, category := m.filterCategory }).length := by
    rw [hinv]
  have hcur' : 0 < m.tasks.length ∧ m.cursor < (m.tasks.length : Int) := by
    unfold Model.hasCurrentTask at hcur
    simpa using hcur
  rw [update_eq_listMode m _ now hm, updateListMode_x_eq, if_pos hcur]
  dsimp only [Model.refreshTasks]
  split <;> dsimp only <;> omega

theorem delete_cursor_clamp_witness :
    0 ≤ (update twoTaskModel (.char "x") 9).cursor ∧
    (update twoTaskModel (.char "x") 9).cursor = twoTaskModel.cursor - 1 :=
  ⟨(delete_cursor_clamp twoTaskModel 9 (by decide) (by unfold VisInv; decide)
      (by decide) (by decide) (by decide)).1,
   (delete_cursor_clamp twoTaskModel 9 (by decide) (by unfold VisInv; decide)
      (by decide) (by decide) (by decide)).2.2.2.1 (by decide) (by decide)⟩

/-- C9 fails as stated: in the reachable state `singleTaskModel` the cursor
(0) is on the last visible row, yet deleting that task leaves the cursor at
0 rather than decrementing it by exactly one. -/
theorem delete_cursor_clamp_counterexample :
    singleTaskModel.cursor = (singleTaskModel.tasks.length : Int) - 1 ∧
    (update singleTaskModel (.char "x") 2).cursor = 0 ∧
    (update singleTaskModel (.char "x") 2).cursor ≠ singleTaskModel.cursor - 1 := by
  decide

end Patodo
